import Mathlib

/-!
Shallow embedding of the conda-mirror core (src/lib.rs, src/config.rs) and
proofs about it.  Pure data flow is modelled directly; external library
services (glob matching, match specs, SHA-256, the network and the object
store) are modelled as function parameters or embedded predicates, exactly
as the code consumes them through their interfaces.
-/

namespace CondaMirror

/-- Byte buffer of a fetched package archive (Rust `Vec<u8>`); each entry is
one byte value. -/
abbrev Bytes := List Nat

/-- Embedding of rattler's `PackageRecord` restricted to the fields the
mirror core reads: the normalized name (read by the glob filter) and the
optional SHA-256 digest (read by the integrity check, modelled as an
abstract digest value). -/
structure PackageRecord where
  name : String
  version : String
  sha256 : Option Nat
  deriving Repr, DecidableEq

/-- Embedding of `glob::Pattern` (third-party): only its boolean `matches`
predicate over a name is consumed by `PackageConfig::matches`. -/
structure GlobPattern where
  test : String → Bool

/-- Embedding of rattler's `NamelessMatchSpec` (third-party): only its
boolean `matches` predicate over a record is consumed. -/
structure NamelessMatchSpec where
  test : PackageRecord → Bool

/-- Embedding of rattler's `MatchSpec` (third-party): only its boolean
`matches` predicate over a record is consumed. -/
structure MatchSpec where
  test : PackageRecord → Bool

/-- Embedding of `PackageConfig` from src/config.rs: either a name glob with
an optional refining match spec, or a full match spec. -/
inductive PackageConfig where
  | packageGlob (name_glob : GlobPattern) (matchspec : Option NamelessMatchSpec)
  | matchSpec (spec : MatchSpec)

/-- Embedding of `PackageConfig::matches` from src/config.rs lines 172-189. -/
def PackageConfig.matches (c : PackageConfig) (package_record : PackageRecord) : Bool :=
  match c with
  | PackageConfig.packageGlob name_glob matchspec =>
    let name_match := name_glob.test package_record.name
    match matchspec with
    | some m => name_match && m.test package_record
    | none => name_match
  | PackageConfig.matchSpec m => m.test package_record

/-- Embedding of `MirrorMode` from src/config.rs lines 221-232. -/
inductive MirrorMode where
  | all
  | allButExclude (excludeRules : List PackageConfig)
  | onlyInclude (includeRules : List PackageConfig)
  | includeExclude (includeRules : List PackageConfig) (excludeRules : List PackageConfig)

/-- Platform tags are strings (rattler's `Platform` serializes to its tag). -/
abbrev Platform := String

/-- Modelled from rattler's `Platform::all` (third-party): the closed
enumeration of known platform tags probed by subdir discovery. -/
def Platform.all : List Platform :=
  ["noarch", "unknown", "linux-32", "linux-64", "linux-aarch64", "linux-armv6l",
   "linux-armv7l", "linux-ppc64le", "linux-ppc64", "linux-s390x", "linux-riscv32",
   "linux-riscv64", "osx-64", "osx-arm64", "win-32", "win-64", "win-arm64",
   "emscripten-wasm32", "wasi-wasm32", "zos-z"]

/-- URL scheme of the source channel, as dispatched on by the code
(`repodata_url.scheme()`). -/
inductive UrlScheme where
  | file
  | http
  | https
  | s3
  deriving Repr, DecidableEq

/-- Embedding of `CondaMirrorConfig` from src/config.rs restricted to the
fields the verified core reads: the source URL scheme (every per-subdir URL
derived from the source shares it), the optional explicit subdir list, and
the mirror mode.  S3 settings and credentials feed only the unmodelled
transport layer. -/
structure CondaMirrorConfig where
  sourceScheme : UrlScheme
  subdirs : Option (List Platform)
  mode : MirrorMode

/-- Embedding of rattler's `RepoData` restricted to the fields the core
reads and rebuilds: `info` is carried opaquely, `packages` and
`conda_packages` are filename-keyed record maps (modelled as association
lists), `removed` and `version` are carried opaquely. -/
structure RepoData where
  info : Option String
  packages : List (String × PackageRecord)
  condaPackages : List (String × PackageRecord)
  removed : List String
  version : Option Nat
  deriving Repr, DecidableEq

/-- Insertion into a filename-keyed map, overriding any existing binding of
the key (the semantics of Rust `HashMap::insert`). -/
def mapInsert (m : List (String × PackageRecord)) (k : String) (v : PackageRecord) :
    List (String × PackageRecord) :=
  m.filter (fun kv => kv.1 != k) ++ [(k, v)]

/-- Embedding of `HashMap::extend`: every binding of `m2` is inserted into
`m1`, overriding on key collision. -/
def extendMap (m1 m2 : List (String × PackageRecord)) : List (String × PackageRecord) :=
  m2.foldl (fun acc kv => mapInsert acc kv.1 kv.2) m1

/-- The merged record set built at the top of `get_packages_to_mirror`
(src/lib.rs lines 186-188): `packages` extended with `conda_packages`. -/
def allPackages (repodata : RepoData) : List (String × PackageRecord) :=
  extendMap repodata.packages repodata.condaPackages

/-- Embedding of `get_packages_to_mirror` from src/lib.rs lines 182-212.
Each arm filters the merged map exactly as the Rust closure does; note the
`includeExclude` arm nests the include check inside the `any` over the
exclude list, as the source does. -/
def getPackagesToMirror (repodata : RepoData) (config : CondaMirrorConfig) :
    List (String × PackageRecord) :=
  let all_packages := allPackages repodata
  match config.mode with
  | MirrorMode.all => all_packages
  | MirrorMode.onlyInclude includeRules =>
    all_packages.filter (fun pkg => includeRules.any (fun i => i.matches pkg.2))
  | MirrorMode.allButExclude excludeRules =>
    all_packages.filter (fun pkg => !(excludeRules.any (fun i => i.matches pkg.2)))
  | MirrorMode.includeExclude includeRules excludeRules =>
    all_packages.filter (fun pkg =>
      !(excludeRules.any (fun i =>
        i.matches pkg.2 || includeRules.any (fun j => j.matches pkg.2))))

/-- Archive kinds distinguished by the manifest partition. -/
inductive ArchiveType where
  | tarBz2
  | conda
  deriving Repr, DecidableEq

/-- Modelled from rattler's `ArchiveType::try_from` (third-party): a filename
ending in ".conda" is a conda archive, otherwise one ending in ".tar.bz2" is
a tar.bz2 archive, otherwise it is not a package archive.  Suffix testing is
done on the character list of the string. -/
def ArchiveType.tryFrom (filename : String) : Option ArchiveType :=
  if (".conda".data).isSuffixOf filename.data then some ArchiveType.conda
  else if (".tar.bz2".data).isSuffixOf filename.data then some ArchiveType.tarBz2
  else none

/-- Suffix test on strings, used to phrase the claims about key shapes. -/
def strEndsWith (s suffix : String) : Bool :=
  (suffix.data).isSuffixOf s.data

/-- File-or-not flag of a destination listing entry (opendal
`EntryMode::is_file`). -/
inductive EntryMode where
  | file
  | dir
  deriving Repr, DecidableEq

/-- One entry of the destination listing (opendal `Entry`): a name relative
to the subdir prefix plus its mode. -/
structure Entry where
  name : String
  mode : EntryMode
  deriving Repr, DecidableEq

/-- Embedding of the `available_packages` computation in `mirror_subdir`
(src/lib.rs lines 456-469): keep the names of listed entries that are files
and parse as a known archive type. -/
def availablePackages (entries : List Entry) : List String :=
  entries.filterMap (fun entry =>
    match entry.mode with
    | EntryMode.file => (ArchiveType.tryFrom entry.name).map (fun _ => entry.name)
    | EntryMode.dir => none)

/-- Embedding of the `packages_to_delete` computation in `mirror_subdir`
(src/lib.rs lines 477-480): the available archives minus the keys of the
filtered set. -/
def packagesToDelete (available : List String) (toMirror : List (String × PackageRecord)) :
    List String :=
  available.filter (fun f => !(toMirror.any (fun kv => kv.1 == f)))

/-- Embedding of the `packages_to_add` computation in `mirror_subdir`
(src/lib.rs lines 481-486): the filtered pairs whose filename is not
available at the destination. -/
def packagesToAdd (available : List String) (toMirror : List (String × PackageRecord)) :
    List (String × PackageRecord) :=
  toMirror.filter (fun kv => !(available.contains kv.1))

/-- Embedding of the manifest rebuild in `mirror_subdir` (src/lib.rs lines
514-547): partition the filtered set by archive type into `packages` and
`conda_packages`, preserving `info`, `removed` and `version`.  The Rust
`unreachable!` hit on a key of unknown archive type is modelled as `none`. -/
def buildNewRepoData (repodata : RepoData) (packagesToMirror : List (String × PackageRecord)) :
    Option RepoData :=
  if packagesToMirror.all (fun kv => (ArchiveType.tryFrom kv.1).isSome) then
    some
      { info := repodata.info
        packages := packagesToMirror.filter
          (fun kv => decide (ArchiveType.tryFrom kv.1 = some ArchiveType.tarBz2))
        condaPackages := packagesToMirror.filter
          (fun kv => decide (ArchiveType.tryFrom kv.1 = some ArchiveType.conda))
        removed := repodata.removed
        version := repodata.version }
  else none

/-- Errors surfaced by sub-tasks (src/lib.rs: miette diagnostics).  The
integrity variant records the filename interpolated into the message
`"Digest of {} does not match: {:x} != {:x}"` together with the expected and
actual digests. -/
inductive MirrorError where
  | fetchError (filename : String)
  | integrityError (filename : String) (expected : Nat) (actual : Nat)
  | storeWriteError (path : String)
  | storeDeleteError (path : String)
  | unreachableArchiveType
  deriving Repr, DecidableEq

/-- Oracle standing for the outside world consumed by one subdir run: the
fetch client (bytes of `<source>/<subdir>/<filename>` or a failure) and the
object store's answers to write and delete requests (`none` means the
operation succeeds). -/
structure Oracle where
  fetch : String → Except MirrorError Bytes
  writeErr : String → Option MirrorError
  deleteErr : String → Option MirrorError

/-- Contents of the destination subdir directory: the archive files (name
with their bytes) and the manifest object `repodata.json`, held separately
for clarity. -/
structure DestState where
  files : List (String × Bytes)
  manifest : Option RepoData
  deriving Repr, DecidableEq

/-- Destination write (opendal `op.write`): total overwrite of the named
object. -/
def DestState.writeFile (st : DestState) (name : String) (b : Bytes) : DestState :=
  { st with files := st.files.filter (fun kv => kv.1 != name) ++ [(name, b)] }

/-- Destination delete (opendal `op.delete`): remove the named object,
succeeding also when it is absent. -/
def DestState.deleteFile (st : DestState) (name : String) : DestState :=
  { st with files := st.files.filter (fun kv => kv.1 != name) }

/-- Whether the destination holds an archive file of this name. -/
def DestState.hasFile (st : DestState) (name : String) : Bool :=
  st.files.any (fun kv => kv.1 == name)

/-- Observable completions of one subdir run, in completion order. -/
inductive Event where
  | deleted (filename : String)
  | added (filename : String)
  | manifestWrite
  deriving Repr, DecidableEq

/-- Embedding of one delete sub-task (src/lib.rs lines 238-257): delete the
object at the destination, surfacing the store's error if any. -/
def deleteTask (ora : Oracle) (filename : String) (st : DestState) :
    Except MirrorError DestState :=
  match ora.deleteErr filename with
  | some e => Except.error e
  | none => Except.ok (st.deleteFile filename)

/-- Embedding of the digest check in the add sub-task (src/lib.rs lines
355-366): when the record carries a SHA-256 and it differs from the digest
of the fetched bytes, fail with the integrity error naming the filename;
otherwise pass. -/
def checkIntegrity (hash : Bytes → Nat) (filename : String)
    (package_record : PackageRecord) (buf : Bytes) : Except MirrorError Unit :=
  match package_record.sha256 with
  | some expected =>
    if expected ≠ hash buf then
      Except.error (MirrorError.integrityError filename expected (hash buf))
    else Except.ok ()
  | none => Except.ok ()

/-- Embedding of one add sub-task (src/lib.rs lines 330-378): fetch the
bytes, check them against the record's SHA-256 when one is present (the
digest function is a parameter standing for SHA-256), then write them to the
destination. -/
def addTask (ora : Oracle) (hash : Bytes → Nat) (filename : String)
    (package_record : PackageRecord) (st : DestState) : Except MirrorError DestState :=
  match ora.fetch filename with
  | Except.error e => Except.error e
  | Except.ok buf =>
    match checkIntegrity hash filename package_record buf with
    | Except.error e => Except.error e
    | Except.ok _ =>
      match ora.writeErr filename with
      | some e => Except.error e
      | none => Except.ok (st.writeFile filename buf)

/-- Embedding of `dispatch_tasks_delete` (src/lib.rs lines 215-299) as a
sequential run of the delete sub-tasks in one completion order: returns the
destination state reached, the completions observed, and the first error if
any.  On an error the remaining tasks do not run and the state reached so
far is returned unchanged. -/
def runDeletes (ora : Oracle) (names : List String) (st : DestState) :
    DestState × List Event × Option MirrorError :=
  match names with
  | [] => (st, [], none)
  | f :: rest =>
    match deleteTask ora f st with
    | Except.error e => (st, [], some e)
    | Except.ok st1 =>
      let res := runDeletes ora rest st1
      (res.1, Event.deleted f :: res.2.1, res.2.2)

/-- Embedding of `dispatch_tasks_add` (src/lib.rs lines 302-420) as a
sequential run of the add sub-tasks in one completion order, with the same
result shape as `runDeletes`. -/
def runAdds (ora : Oracle) (hash : Bytes → Nat) (adds : List (String × PackageRecord))
    (st : DestState) : DestState × List Event × Option MirrorError :=
  match adds with
  | [] => (st, [], none)
  | (f, r) :: rest =>
    match addTask ora hash f r st with
    | Except.error e => (st, [], some e)
    | Except.ok st1 =>
      let res := runAdds ora hash rest st1
      (res.1, Event.added f :: res.2.1, res.2.2)

/-- Embedding of the effectful tail of `mirror_subdir` (src/lib.rs lines
456-561): list the destination, plan, run the deletions, then the additions,
then rebuild and write the manifest; the `?` early returns on the first
failing phase are modelled by returning the error with the state reached. -/
def mirrorSubdirExec (ora : Oracle) (hash : Bytes → Nat) (repodata : RepoData)
    (config : CondaMirrorConfig) (entries : List Entry) (st : DestState) :
    DestState × List Event × Option MirrorError :=
  match runDeletes ora
      (packagesToDelete (availablePackages entries) (getPackagesToMirror repodata config))
      st with
  | (st1, tr1, some e) => (st1, tr1, some e)
  | (st1, tr1, none) =>
    match runAdds ora hash
        (packagesToAdd (availablePackages entries) (getPackagesToMirror repodata config))
        st1 with
    | (st2, tr2, some e) => (st2, tr1 ++ tr2, some e)
    | (st2, tr2, none) =>
      match buildNewRepoData repodata (getPackagesToMirror repodata config) with
      | none => (st2, tr1 ++ tr2, some MirrorError.unreachableArchiveType)
      | some newRepodata =>
        match ora.writeErr "repodata.json" with
        | some e => (st2, tr1 ++ tr2, some e)
        | none =>
          ({ st2 with manifest := some newRepodata },
           tr1 ++ tr2 ++ [Event.manifestWrite], none)

/-- The destination listing produced by a state: every archive file as a
file entry, plus the manifest object `repodata.json` when present. -/
def listState (st : DestState) : List Entry :=
  st.files.map (fun kv => { name := kv.1, mode := EntryMode.file }) ++
    (match st.manifest with
     | some _ => [{ name := "repodata.json", mode := EntryMode.file }]
     | none => [])

/-- Embedding of `get_subdirs` (src/lib.rs lines 563-598): the explicit
subdir list when the job carries one, otherwise the platforms whose probe
succeeds — path existence for `file` sources (oracle `fileExists`), a
successful HEAD response otherwise (oracle `headOk`). -/
def getSubdirs (config : CondaMirrorConfig) (fileExists headOk : Platform → Bool) :
    List Platform :=
  match config.subdirs with
  | some subdirs => subdirs
  | none =>
    Platform.all.filter (fun subdir =>
      match config.sourceScheme with
      | UrlScheme.file => fileExists subdir
      | _ => headOk subdir)

/-! ## Concrete fixtures used by the witnesses -/

/-- Concrete record for witnesses: name "a", no digest. -/
def recA : PackageRecord := { name := "a", version := "1.0", sha256 := none }

/-- Concrete record for witnesses: name "b", no digest. -/
def recB : PackageRecord := { name := "b", version := "2.0", sha256 := none }

/-- Concrete rule for witnesses: a match spec matching exactly name "a". -/
def ruleA : PackageConfig := PackageConfig.matchSpec { test := fun r => r.name == "a" }

/-- Concrete manifest for witnesses: one tar.bz2 package and one conda
package. -/
def rdAB : RepoData :=
  { info := some "channel-info"
    packages := [("a-1.0-0.tar.bz2", recA)]
    condaPackages := [("b-2.0-0.conda", recB)]
    removed := ["old-0.1-0.tar.bz2"]
    version := some 1 }

/-- Concrete config for the C1 witness: IncludeExclude with the same single
rule on both sides. -/
def cfgIE : CondaMirrorConfig :=
  { sourceScheme := UrlScheme.https, subdirs := none
    mode := MirrorMode.includeExclude [ruleA] [ruleA] }

/-- Concrete config for the C8 witness: AllButExclude with one rule. -/
def cfgABE : CondaMirrorConfig :=
  { sourceScheme := UrlScheme.https, subdirs := none
    mode := MirrorMode.allButExclude [ruleA] }

/-- Concrete config for the C8 witness: OnlyInclude with the same rule. -/
def cfgOI : CondaMirrorConfig :=
  { sourceScheme := UrlScheme.https, subdirs := none
    mode := MirrorMode.onlyInclude [ruleA] }

/-- Concrete config for the C10 witness: IncludeExclude with an empty
exclude list. -/
def cfgIEempty : CondaMirrorConfig :=
  { sourceScheme := UrlScheme.https, subdirs := none
    mode := MirrorMode.includeExclude [ruleA] [] }

/-- Concrete config with mode All. -/
def cfgAll : CondaMirrorConfig :=
  { sourceScheme := UrlScheme.https, subdirs := none, mode := MirrorMode.all }

/-- Concrete config with an explicit subdir list, for the C9 witness. -/
def cfgSub : CondaMirrorConfig :=
  { sourceScheme := UrlScheme.https, subdirs := some ["linux-64", "noarch"]
    mode := MirrorMode.all }

/-- Concrete filtered set for the C2 theorems. -/
def KA : List (String × PackageRecord) := [("a-1.0-0.tar.bz2", recA)]

/-- Concrete destination listing with an archive file, a non-archive file
and a directory. -/
def entriesMix : List Entry :=
  [{ name := "c-1.0-0.tar.bz2", mode := EntryMode.file },
   { name := "junk.txt", mode := EntryMode.file },
   { name := "d-1.0-0.conda", mode := EntryMode.dir }]

/-- Concrete destination listing holding one non-archive file. -/
def entriesTxt : List Entry := [{ name := "a.txt", mode := EntryMode.file }]

/-- Concrete filtered set with both archive kinds, for the C3 witness. -/
def KAB : List (String × PackageRecord) :=
  [("a-1.0-0.tar.bz2", recA), ("b-2.0-0.conda", recB)]

/-- Phase rank of a completion: deletions, then additions, then the manifest
write. -/
def Event.phase : Event → Nat
  | Event.deleted _ => 0
  | Event.added _ => 1
  | Event.manifestWrite => 2

/-- Oracle for witnesses: every fetch yields the byte [1], every store
operation succeeds. -/
def oraOk : Oracle :=
  { fetch := fun _ => Except.ok [1], writeErr := fun _ => none, deleteErr := fun _ => none }

/-- Oracle for witnesses whose delete operations all fail. -/
def oraDelFail : Oracle :=
  { fetch := fun _ => Except.ok [1], writeErr := fun _ => none
    deleteErr := fun f => some (MirrorError.storeDeleteError f) }

/-- Digest function for witnesses: constant 0. -/
def hashZero : Bytes → Nat := fun _ => 0

/-- Digest function for witnesses: constant 5. -/
def hashFive : Bytes → Nat := fun _ => 5

/-- Empty destination. -/
def stEmpty : DestState := { files := [], manifest := none }

/-- Destination state after mirroring `rdAB` into an empty destination. -/
def stRun : DestState :=
  { files := [("a-1.0-0.tar.bz2", [1]), ("b-2.0-0.conda", [1])], manifest := some rdAB }

/-- Trace of mirroring `rdAB` into an empty destination. -/
def trRun : List Event :=
  [Event.added "a-1.0-0.tar.bz2", Event.added "b-2.0-0.conda", Event.manifestWrite]

/-- Record carrying the SHA-256 digest value 5. -/
def recSha5 : PackageRecord := { name := "c", version := "1.0", sha256 := some 5 }

/-- Manifest whose only package carries digest 5. -/
def rdC : RepoData :=
  { info := none, packages := [("c-1.0-0.tar.bz2", recSha5)], condaPackages := []
    removed := [], version := some 1 }

/-- Empty manifest. -/
def rdEmpty : RepoData :=
  { info := none, packages := [], condaPackages := [], removed := [], version := some 1 }

/-- Destination listing holding one stale archive. -/
def entriesX : List Entry := [{ name := "x-1.0-0.tar.bz2", mode := EntryMode.file }]

/-! ## C1: IncludeExclude retention condition -/

/-- C1: under mode `IncludeExclude(I, E)`, a package record of the merged
partitions is retained by `get_packages_to_mirror` if and only if no rule
`e ∈ E` satisfies `e.matches p ∨ ∃ i ∈ I, i.matches p` — the include check
is nested inside the quantifier over the exclude list, exactly as in the
source. -/
theorem includeExclude_retains_iff (rd : RepoData) (cfg : CondaMirrorConfig)
    (I E : List PackageConfig) (hmode : cfg.mode = MirrorMode.includeExclude I E)
    (k : String) (p : PackageRecord) :
    (k, p) ∈ getPackagesToMirror rd cfg ↔
      ((k, p) ∈ allPackages rd ∧
        ¬ ∃ e ∈ E, e.matches p = true ∨ ∃ i ∈ I, i.matches p = true) := by
  simp [getPackagesToMirror, hmode, List.mem_filter, List.any_eq_true]

/-- Witness for C1 at concrete inputs: the single rule excludes record
`recA`, so it is not retained. -/
theorem includeExclude_retains_iff_witness :
    ("a-1.0-0.tar.bz2", recA) ∈ getPackagesToMirror rdAB cfgIE ↔
      (("a-1.0-0.tar.bz2", recA) ∈ allPackages rdAB ∧
        ¬ ∃ e ∈ [ruleA], e.matches recA = true ∨ ∃ i ∈ [ruleA], i.matches recA = true) :=
  includeExclude_retains_iff rdAB cfgIE [ruleA] [ruleA] rfl "a-1.0-0.tar.bz2" recA

/-! ## C8: AllButExclude is the complement of OnlyInclude -/

/-- C8: with the same rule list `E`, `AllButExclude(E)` retains exactly the
merged set minus what `OnlyInclude(E)` retains, and the two modes partition
the merged set: together they cover it and they are disjoint. -/
theorem allButExclude_complements_onlyInclude (rd : RepoData)
    (cfg cfg' : CondaMirrorConfig) (E : List PackageConfig)
    (h : cfg.mode = MirrorMode.allButExclude E)
    (h' : cfg'.mode = MirrorMode.onlyInclude E) :
    (∀ kp : String × PackageRecord,
        kp ∈ getPackagesToMirror rd cfg ↔
          kp ∈ allPackages rd ∧ kp ∉ getPackagesToMirror rd cfg') ∧
    (∀ kp : String × PackageRecord,
        kp ∈ allPackages rd ↔
          (kp ∈ getPackagesToMirror rd cfg ∨ kp ∈ getPackagesToMirror rd cfg')) ∧
    (∀ kp : String × PackageRecord,
        ¬(kp ∈ getPackagesToMirror rd cfg ∧ kp ∈ getPackagesToMirror rd cfg')) := by
  refine ⟨fun kp => ?_, fun kp => ?_, fun kp => ?_⟩ <;>
    simp only [getPackagesToMirror, h, h', List.mem_filter, Bool.not_eq_true'] <;>
    by_cases hb : (E.any fun i => i.matches kp.2) = true <;>
    simp [hb]

/-- Witness for C8 at concrete inputs. -/
theorem allButExclude_complements_onlyInclude_witness :
    (("a-1.0-0.tar.bz2", recA) ∈ getPackagesToMirror rdAB cfgABE ↔
      ("a-1.0-0.tar.bz2", recA) ∈ allPackages rdAB ∧
        ("a-1.0-0.tar.bz2", recA) ∉ getPackagesToMirror rdAB cfgOI) ∧
    ¬(("a-1.0-0.tar.bz2", recA) ∈ getPackagesToMirror rdAB cfgABE ∧
      ("a-1.0-0.tar.bz2", recA) ∈ getPackagesToMirror rdAB cfgOI) :=
  ⟨(allButExclude_complements_onlyInclude rdAB cfgABE cfgOI [ruleA] rfl rfl).1
      ("a-1.0-0.tar.bz2", recA),
   (allButExclude_complements_onlyInclude rdAB cfgABE cfgOI [ruleA] rfl rfl).2.2
      ("a-1.0-0.tar.bz2", recA)⟩

/-! ## C10: IncludeExclude with an empty exclude list retains everything -/

/-- C10: under `IncludeExclude(I, [])` the filter retains every record of
the merged partitions — the result is the full merged map, identical to the
result under mode `All`, for any include rules `I`. -/
theorem includeExclude_empty_exclude_is_all (rd : RepoData)
    (cfg cfgA : CondaMirrorConfig) (I : List PackageConfig)
    (h : cfg.mode = MirrorMode.includeExclude I [])
    (hA : cfgA.mode = MirrorMode.all) :
    getPackagesToMirror rd cfg = allPackages rd ∧
    getPackagesToMirror rd cfg = getPackagesToMirror rd cfgA := by
  have h1 : getPackagesToMirror rd cfg = allPackages rd := by
    simp [getPackagesToMirror, h]
  have h2 : getPackagesToMirror rd cfgA = allPackages rd := by
    simp [getPackagesToMirror, hA]
  exact ⟨h1, h1.trans h2.symm⟩

/-- Witness for C10 at concrete inputs. -/
theorem includeExclude_empty_exclude_is_all_witness :
    getPackagesToMirror rdAB cfgIEempty = allPackages rdAB ∧
    getPackagesToMirror rdAB cfgIEempty = getPackagesToMirror rdAB cfgAll :=
  includeExclude_empty_exclude_is_all rdAB cfgIEempty cfgAll [ruleA] rfl rfl

/-! ## C9: subdir discovery -/

/-- C9: `get_subdirs` returns the job's explicit subdir list when one is
given; otherwise it returns exactly the platforms of the enumerated universe
whose probe succeeds — path existence for a `file` source, a successful HEAD
response for the other schemes. -/
theorem getSubdirs_spec (cfg : CondaMirrorConfig) (fileExists headOk : Platform → Bool) :
    (∀ l, cfg.subdirs = some l → getSubdirs cfg fileExists headOk = l) ∧
    (cfg.subdirs = none → ∀ p, p ∈ getSubdirs cfg fileExists headOk ↔
      (p ∈ Platform.all ∧
        (if cfg.sourceScheme = UrlScheme.file then fileExists p = true
         else headOk p = true))) := by
  obtain ⟨scheme, subs, mode⟩ := cfg
  constructor
  · intro l hl
    simp only at hl
    simp [getSubdirs, hl]
  · intro hn p
    simp only at hn
    cases scheme <;> simp [getSubdirs, hn, List.mem_filter]

/-- Witness for C9 at concrete inputs: explicit list returned as-is, and a
probe-driven membership for a config without an explicit list. -/
theorem getSubdirs_spec_witness :
    getSubdirs cfgSub (fun _ => true) (fun _ => true) = ["linux-64", "noarch"] ∧
    ("noarch" ∈ getSubdirs cfgAll (fun _ => true) (fun _ => true) ↔
      ("noarch" ∈ Platform.all ∧
        (if cfgAll.sourceScheme = UrlScheme.file then (fun _ => true) "noarch" = true
         else (fun _ => true) "noarch" = true))) :=
  ⟨(getSubdirs_spec cfgSub (fun _ => true) (fun _ => true)).1 ["linux-64", "noarch"] rfl,
   (getSubdirs_spec cfgAll (fun _ => true) (fun _ => true)).2 rfl "noarch"⟩

/-! ## C2: reconciliation plan -/

/-- C2 (amended): with `D` the listed file entries whose names parse as a
known archive type, `to_delete` is exactly `D` minus the keys of `K` and
`to_add` is exactly the pairs of `K` whose filename is not in `D`; `D`
contains only archive-type names of file entries, and `to_delete` draws only
from `D`, so an entry that is not a file or not a recognized archive type is
never deleted on its own account — but its name can still appear among the
keys of `to_add` when `K` contains that name, since it does not count as
present. -/
theorem plan_spec (entries : List Entry) (K : List (String × PackageRecord)) :
    (∀ f, f ∈ packagesToDelete (availablePackages entries) K ↔
        (f ∈ availablePackages entries ∧ f ∉ K.map Prod.fst)) ∧
    (∀ f r, (f, r) ∈ packagesToAdd (availablePackages entries) K ↔
        ((f, r) ∈ K ∧ f ∉ availablePackages entries)) ∧
    (∀ f ∈ availablePackages entries,
        (ArchiveType.tryFrom f).isSome = true ∧
          ∃ e ∈ entries, e.name = f ∧ e.mode = EntryMode.file) ∧
    (∀ f ∈ packagesToDelete (availablePackages entries) K,
        f ∈ availablePackages entries) := by
  refine ⟨?_, ?_, ?_, ?_⟩
  · intro f
    simp only [packagesToDelete, List.mem_filter, List.any_eq_true, List.mem_map,
      Bool.not_eq_true', List.any_eq_false, beq_iff_eq]
    constructor
    · rintro ⟨hf, hk⟩
      refine ⟨hf, fun hm => ?_⟩
      obtain ⟨kv, hkv, hkf⟩ := hm
      exact absurd hkf (hk kv hkv)
    · rintro ⟨hf, hk⟩
      exact ⟨hf, fun kv hkv hkf => hk ⟨kv, hkv, hkf⟩⟩
  · intro f r
    simp [packagesToAdd, List.mem_filter]
  · intro f hf
    simp only [availablePackages, List.mem_filterMap] at hf
    obtain ⟨e, he, hfe⟩ := hf
    cases hm : e.mode <;> rw [hm] at hfe
    · rcases ho : ArchiveType.tryFrom e.name with _ | t <;> rw [ho] at hfe
      · simp at hfe
      · simp at hfe
        exact ⟨by rw [← hfe, ho]; rfl, e, he, hfe, hm⟩
    · simp at hfe
  · intro f hf
    exact (List.mem_filter.mp hf).1

/-- Witness for C2 at concrete inputs, discharging the membership
hypotheses of the last two clauses at the archive file "c-1.0-0.tar.bz2". -/
theorem plan_spec_witness :
    ("c-1.0-0.tar.bz2" ∈ packagesToDelete (availablePackages entriesMix) KA ↔
      ("c-1.0-0.tar.bz2" ∈ availablePackages entriesMix ∧
        "c-1.0-0.tar.bz2" ∉ KA.map Prod.fst)) ∧
    ((("a-1.0-0.tar.bz2", recA) ∈ packagesToAdd (availablePackages entriesMix) KA) ↔
      (("a-1.0-0.tar.bz2", recA) ∈ KA ∧
        "a-1.0-0.tar.bz2" ∉ availablePackages entriesMix)) ∧
    ((ArchiveType.tryFrom "c-1.0-0.tar.bz2").isSome = true ∧
      ∃ e ∈ entriesMix, e.name = "c-1.0-0.tar.bz2" ∧ e.mode = EntryMode.file) ∧
    "c-1.0-0.tar.bz2" ∈ availablePackages entriesMix :=
  ⟨(plan_spec entriesMix KA).1 "c-1.0-0.tar.bz2",
   (plan_spec entriesMix KA).2.1 "a-1.0-0.tar.bz2" recA,
   (plan_spec entriesMix KA).2.2.1 "c-1.0-0.tar.bz2" (by decide),
   (plan_spec entriesMix KA).2.2.2 "c-1.0-0.tar.bz2" (by decide)⟩

/-- Counterexample to C2 as stated: the destination file "a.txt" has no
recognized archive type, yet its name appears among the keys of `to_add`
when the filtered set carries that key — the entry is ignored for `D`, so it
does not suppress the addition. -/
theorem plan_nonarchive_name_in_to_add :
    ArchiveType.tryFrom "a.txt" = none ∧
    { name := "a.txt", mode := EntryMode.file } ∈ entriesTxt ∧
    ("a.txt", recA) ∈ packagesToAdd (availablePackages entriesTxt) [("a.txt", recA)] := by
  refine ⟨by decide, by decide, by decide⟩

/-! ## Archive-type shape lemmas -/

/-- No character list ends in both ".conda" and ".tar.bz2": their last
characters differ. -/
theorem conda_tarbz2_suffix_absurd (l : List Char)
    (h1 : (".conda".data) <:+ l) (h2 : (".tar.bz2".data) <:+ l) : False := by
  obtain ⟨t1, h1⟩ := h1
  obtain ⟨t2, h2⟩ := h2
  have e1 : l.getLast? = (".conda".data).getLast? := by
    rw [← h1]; exact List.getLast?_append_of_ne_nil t1 (by decide)
  have e2 : l.getLast? = (".tar.bz2".data).getLast? := by
    rw [← h2]; exact List.getLast?_append_of_ne_nil t2 (by decide)
  rw [e1] at e2
  revert e2; decide

/-- A filename parses as a conda archive exactly when it ends in ".conda". -/
theorem tryFrom_eq_conda_iff (f : String) :
    ArchiveType.tryFrom f = some ArchiveType.conda ↔ strEndsWith f ".conda" = true := by
  unfold ArchiveType.tryFrom strEndsWith
  by_cases h : ((".conda".data).isSuffixOf f.data) = true
  · rw [if_pos h]
    simp [h]
  · rw [if_neg h]
    by_cases h2 : ((".tar.bz2".data).isSuffixOf f.data) = true
    · rw [if_pos h2]
      simp [h]
    · rw [if_neg h2]
      simp [h]

/-- A filename parses as a tar.bz2 archive exactly when it ends in
".tar.bz2". -/
theorem tryFrom_eq_tarBz2_iff (f : String) :
    ArchiveType.tryFrom f = some ArchiveType.tarBz2 ↔ strEndsWith f ".tar.bz2" = true := by
  unfold ArchiveType.tryFrom strEndsWith
  by_cases h : ((".conda".data).isSuffixOf f.data) = true
  · rw [if_pos h]
    constructor
    · intro hc
      simp at hc
    · intro htb
      exact (conda_tarbz2_suffix_absurd f.data
        (List.isSuffixOf_iff_suffix.mp h) (List.isSuffixOf_iff_suffix.mp htb)).elim
  · rw [if_neg h]
    by_cases h2 : ((".tar.bz2".data).isSuffixOf f.data) = true
    · rw [if_pos h2]
      simp [h2]
    · rw [if_neg h2]
      simp [h2]

/-! ## C3: manifest rebuild -/

/-- C3: when every key of the filtered set parses as a known archive type
(the precondition under which the Rust rebuild does not hit its
`unreachable!`), the emitted manifest restricts the filtered set to the
".tar.bz2" keys in `packages` and to the ".conda" keys in `conda_packages`,
carries `info`, `removed` and `version` over unchanged, and consequently
every emitted `packages` key ends in ".tar.bz2" and every emitted
`conda_packages` key ends in ".conda". -/
theorem manifest_rebuild_spec (rd : RepoData) (K : List (String × PackageRecord))
    (hkeys : ∀ kv ∈ K, (ArchiveType.tryFrom kv.1).isSome = true) :
    ∃ out, buildNewRepoData rd K = some out ∧
      (∀ kv : String × PackageRecord,
          kv ∈ out.packages ↔ (kv ∈ K ∧ strEndsWith kv.1 ".tar.bz2" = true)) ∧
      (∀ kv : String × PackageRecord,
          kv ∈ out.condaPackages ↔ (kv ∈ K ∧ strEndsWith kv.1 ".conda" = true)) ∧
      out.info = rd.info ∧ out.removed = rd.removed ∧ out.version = rd.version ∧
      (∀ kv ∈ out.packages, strEndsWith kv.1 ".tar.bz2" = true) ∧
      (∀ kv ∈ out.condaPackages, strEndsWith kv.1 ".conda" = true) := by
  have hguard : (K.all fun kv => (ArchiveType.tryFrom kv.1).isSome) = true :=
    List.all_eq_true.mpr hkeys
  refine ⟨{ info := rd.info
            packages := K.filter
              (fun kv => decide (ArchiveType.tryFrom kv.1 = some ArchiveType.tarBz2))
            condaPackages := K.filter
              (fun kv => decide (ArchiveType.tryFrom kv.1 = some ArchiveType.conda))
            removed := rd.removed
            version := rd.version }, ?_, ?_, ?_, rfl, rfl, rfl, ?_, ?_⟩
  · unfold buildNewRepoData
    rw [if_pos hguard]
  · intro kv
    simp [List.mem_filter, tryFrom_eq_tarBz2_iff]
  · intro kv
    simp [List.mem_filter, tryFrom_eq_conda_iff]
  · intro kv hkv
    have h2 := (List.mem_filter.mp hkv).2
    simp only [decide_eq_true_eq] at h2
    exact (tryFrom_eq_tarBz2_iff kv.1).mp h2
  · intro kv hkv
    have h2 := (List.mem_filter.mp hkv).2
    simp only [decide_eq_true_eq] at h2
    exact (tryFrom_eq_conda_iff kv.1).mp h2

/-- Witness for C3 at concrete inputs. -/
theorem manifest_rebuild_spec_witness :
    ∃ out, buildNewRepoData rdAB KAB = some out ∧
      (∀ kv : String × PackageRecord,
          kv ∈ out.packages ↔ (kv ∈ KAB ∧ strEndsWith kv.1 ".tar.bz2" = true)) ∧
      (∀ kv : String × PackageRecord,
          kv ∈ out.condaPackages ↔ (kv ∈ KAB ∧ strEndsWith kv.1 ".conda" = true)) ∧
      out.info = rdAB.info ∧ out.removed = rdAB.removed ∧ out.version = rdAB.version ∧
      (∀ kv ∈ out.packages, strEndsWith kv.1 ".tar.bz2" = true) ∧
      (∀ kv ∈ out.condaPackages, strEndsWith kv.1 ".conda" = true) :=
  manifest_rebuild_spec rdAB KAB (by decide)

/-! ## Execution-model helper lemmas -/

/-- The manifest object name is not a package archive name. -/
theorem tryFrom_repodata : ArchiveType.tryFrom "repodata.json" = none := by decide

/-- Writing an archive makes exactly its name present, leaving the presence
of every other name unchanged. -/
theorem hasFile_writeFile (st : DestState) (f n : String) (b : Bytes) :
    (st.writeFile f b).hasFile n = true ↔ (n = f ∨ st.hasFile n = true) := by
  simp only [DestState.writeFile, DestState.hasFile, List.any_eq_true, List.mem_append,
    List.mem_filter, List.mem_singleton, bne_iff_ne, beq_iff_eq]
  by_cases hnf : n = f <;> simp [hnf]

/-- Deleting an archive makes exactly its name absent, leaving the presence
of every other name unchanged. -/
theorem hasFile_deleteFile (st : DestState) (f n : String) :
    (st.deleteFile f).hasFile n = true ↔ (st.hasFile n = true ∧ n ≠ f) := by
  simp only [DestState.deleteFile, DestState.hasFile, List.any_eq_true,
    List.mem_filter, bne_iff_ne, beq_iff_eq]
  constructor
  · rintro ⟨kv, ⟨hm, hne⟩, he⟩
    exact ⟨⟨kv, hm, he⟩, by rw [← he]; exact hne⟩
  · rintro ⟨⟨kv, hm, he⟩, hne⟩
    exact ⟨kv, ⟨hm, by rw [he]; exact hne⟩, he⟩

/-- Shape of a successful add sub-task: the fetch succeeded, the store write
succeeded, and the new state is the old one with the fetched bytes written
under the filename. -/
theorem addTask_ok (ora : Oracle) (hash : Bytes → Nat) (f : String) (r : PackageRecord)
    (st st' : DestState) (h : addTask ora hash f r st = Except.ok st') :
    ∃ buf, ora.fetch f = Except.ok buf ∧ ora.writeErr f = none ∧
      st' = st.writeFile f buf := by
  cases hf : ora.fetch f with
  | error e => simp [addTask, hf] at h
  | ok buf =>
    cases hc : checkIntegrity hash f r buf with
    | error e => simp [addTask, hf, hc] at h
    | ok u =>
      cases hw : ora.writeErr f with
      | some e => simp [addTask, hf, hc, hw] at h
      | none =>
        simp only [addTask, hf, hc, hw, Except.ok.injEq] at h
        exact ⟨buf, rfl, rfl, h.symm⟩

/-- Shape of a successful delete sub-task: the store delete succeeded and
the new state is the old one with the name removed. -/
theorem deleteTask_ok (ora : Oracle) (f : String) (st st' : DestState)
    (h : deleteTask ora f st = Except.ok st') :
    ora.deleteErr f = none ∧ st' = st.deleteFile f := by
  cases hd : ora.deleteErr f with
  | none =>
    simp only [deleteTask, hd, Except.ok.injEq] at h
    exact ⟨rfl, h.symm⟩
  | some e => simp [deleteTask, hd] at h

/-- The delete phase never touches the manifest object, whatever its
outcome. -/
theorem runDeletes_manifest (ora : Oracle) (names : List String) (st : DestState) :
    (runDeletes ora names st).1.manifest = st.manifest := by
  induction names generalizing st with
  | nil => rfl
  | cons f rest ih =>
    simp only [runDeletes]
    cases hd : deleteTask ora f st
    · rfl
    · rename_i st1
      simp only
      rw [ih st1, (deleteTask_ok ora f st st1 hd).2]
      rfl

/-- The add phase never touches the manifest object, whatever its
outcome. -/
theorem runAdds_manifest (ora : Oracle) (hash : Bytes → Nat)
    (adds : List (String × PackageRecord)) (st : DestState) :
    (runAdds ora hash adds st).1.manifest = st.manifest := by
  induction adds generalizing st with
  | nil => rfl
  | cons kv rest ih =>
    obtain ⟨f, r⟩ := kv
    simp only [runAdds]
    cases ha : addTask ora hash f r st
    · rfl
    · rename_i st1
      simp only
      rw [ih st1]
      obtain ⟨buf, -, -, hst1⟩ := addTask_ok ora hash f r st st1 ha
      rw [hst1]
      rfl

/-- Characterization of a successful delete phase: exactly the listed names
are removed, the manifest is untouched, and the completions are the
deletions in order. -/
theorem runDeletes_ok (ora : Oracle) (names : List String) (st st' : DestState)
    (tr : List Event) (h : runDeletes ora names st = (st', tr, none)) :
    (∀ n, st'.hasFile n = true ↔ (st.hasFile n = true ∧ n ∉ names)) ∧
    st'.manifest = st.manifest ∧ tr = names.map Event.deleted := by
  induction names generalizing st tr with
  | nil =>
    simp only [runDeletes, Prod.mk.injEq] at h
    obtain ⟨h1, h2, -⟩ := h
    subst h1
    subst h2
    simp
  | cons f rest ih =>
    simp only [runDeletes] at h
    cases hd : deleteTask ora f st <;> rw [hd] at h
    · simp at h
    · rename_i st1
      simp only [Prod.mk.injEq] at h
      obtain ⟨h1, h2, h3⟩ := h
      have hrun : runDeletes ora rest st1 = (st', (runDeletes ora rest st1).2.1, none) := by
        rw [← h1, ← h3]
      obtain ⟨ihh, ihm, iht⟩ := ih st1 (runDeletes ora rest st1).2.1 hrun
      obtain ⟨-, hst1⟩ := deleteTask_ok ora f st st1 hd
      subst hst1
      refine ⟨?_, ?_, ?_⟩
      · intro n
        rw [ihh n, hasFile_deleteFile]
        simp only [List.mem_cons]
        constructor
        · rintro ⟨⟨hh, hnf⟩, hnr⟩
          exact ⟨hh, fun hc => hc.elim hnf hnr⟩
        · rintro ⟨hh, hnc⟩
          exact ⟨⟨hh, fun hc => hnc (Or.inl hc)⟩, fun hc => hnc (Or.inr hc)⟩
      · rw [ihm]
        rfl
      · rw [← h2, iht]
        rfl

/-- Characterization of a successful add phase: exactly the names of the
added pairs become present, the manifest is untouched, and the completions
are the additions in order. -/
theorem runAdds_ok (ora : Oracle) (hash : Bytes → Nat)
    (adds : List (String × PackageRecord)) (st st' : DestState)
    (tr : List Event) (h : runAdds ora hash adds st = (st', tr, none)) :
    (∀ n, st'.hasFile n = true ↔ (st.hasFile n = true ∨ n ∈ adds.map Prod.fst)) ∧
    st'.manifest = st.manifest ∧ tr = adds.map (fun kv => Event.added kv.1) := by
  induction adds generalizing st tr with
  | nil =>
    simp only [runAdds, Prod.mk.injEq] at h
    obtain ⟨h1, h2, -⟩ := h
    subst h1
    subst h2
    simp
  | cons kv rest ih =>
    obtain ⟨f, r⟩ := kv
    simp only [runAdds] at h
    cases ha : addTask ora hash f r st <;> rw [ha] at h
    · simp at h
    · rename_i st1
      simp only [Prod.mk.injEq] at h
      obtain ⟨h1, h2, h3⟩ := h
      have hrun : runAdds ora hash rest st1 = (st', (runAdds ora hash rest st1).2.1, none) := by
        rw [← h1, ← h3]
      obtain ⟨ihh, ihm, iht⟩ := ih st1 (runAdds ora hash rest st1).2.1 hrun
      obtain ⟨buf, -, -, hst1⟩ := addTask_ok ora hash f r st st1 ha
      subst hst1
      refine ⟨?_, ?_, ?_⟩
      · intro n
        rw [ihh n, hasFile_writeFile]
        simp only [List.map_cons, List.mem_cons]
        constructor
        · rintro (⟨hnf | hh⟩ | hr)
          · exact Or.inr (Or.inl hnf)
          · exact Or.inl hh
          · exact Or.inr (Or.inr hr)
        · rintro (hh | hnf | hr)
          · exact Or.inl (Or.inr hh)
          · exact Or.inl (Or.inl hnf)
          · exact Or.inr hr
      · rw [ihm]
        rfl
      · rw [← h2, iht]
        rfl

/-- Membership in the archive listing of a destination state: the archive
files whose names parse as a known archive type; the manifest object never
qualifies. -/
theorem mem_available_listState (st : DestState) (n : String) :
    n ∈ availablePackages (listState st) ↔
      (st.hasFile n = true ∧ (ArchiveType.tryFrom n).isSome = true) := by
  simp only [availablePackages, listState, List.filterMap_append, List.mem_append,
    List.mem_filterMap, List.mem_map, DestState.hasFile, List.any_eq_true, beq_iff_eq]
  constructor
  · rintro (⟨e, ⟨kv, hkv, hke⟩, hfe⟩ | ⟨e, he, hfe⟩)
    · rw [← hke] at hfe
      simp only at hfe
      rcases ho : ArchiveType.tryFrom kv.1 with _ | t <;> rw [ho] at hfe
      · simp at hfe
      · simp only [Option.map_some'] at hfe
        cases hfe
        exact ⟨⟨kv, hkv, rfl⟩, by rw [ho]; rfl⟩
    · cases hm : st.manifest <;> rw [hm] at he
      · simp at he
      · simp only [List.mem_singleton] at he
        rw [he] at hfe
        simp only [tryFrom_repodata, Option.map_none'] at hfe
        cases hfe
  · rintro ⟨⟨kv, hkv, hke⟩, hsome⟩
    refine Or.inl ⟨{ name := kv.1, mode := EntryMode.file }, ⟨kv, hkv, rfl⟩, ?_⟩
    simp only
    rw [hke]
    rcases ho : ArchiveType.tryFrom n with _ | t
    · rw [ho] at hsome
      simp at hsome
    · simp

/-- Characterization of a successful subdir run: afterwards an archive is
present iff it survived the deletions or was added, the manifest object
holds the rebuilt manifest, and the completions are the deletions, then the
additions, then the manifest write. -/
theorem mirrorSubdirExec_ok (ora : Oracle) (hash : Bytes → Nat) (rd : RepoData)
    (cfg : CondaMirrorConfig) (entries : List Entry) (st st' : DestState)
    (tr : List Event)
    (h : mirrorSubdirExec ora hash rd cfg entries st = (st', tr, none)) :
    (∀ n, st'.hasFile n = true ↔
      ((st.hasFile n = true ∧
          n ∉ packagesToDelete (availablePackages entries) (getPackagesToMirror rd cfg)) ∨
        n ∈ (packagesToAdd (availablePackages entries)
          (getPackagesToMirror rd cfg)).map Prod.fst)) ∧
    (∃ m, buildNewRepoData rd (getPackagesToMirror rd cfg) = some m ∧
      st'.manifest = some m) ∧
    ora.writeErr "repodata.json" = none ∧
    tr = (packagesToDelete (availablePackages entries)
        (getPackagesToMirror rd cfg)).map Event.deleted ++
      (packagesToAdd (availablePackages entries)
        (getPackagesToMirror rd cfg)).map (fun kv => Event.added kv.1) ++
      [Event.manifestWrite] := by
  unfold mirrorSubdirExec at h
  rcases hD : runDeletes ora
      (packagesToDelete (availablePackages entries) (getPackagesToMirror rd cfg)) st with
    ⟨st1, tr1, e1⟩
  rw [hD] at h
  cases e1 with
  | some e => simp at h
  | none =>
    simp only [] at h
    rcases hA : runAdds ora hash
        (packagesToAdd (availablePackages entries) (getPackagesToMirror rd cfg)) st1 with
      ⟨st2, tr2, e2⟩
    rw [hA] at h
    cases e2 with
    | some e => simp at h
    | none =>
      simp only [] at h
      cases hB : buildNewRepoData rd (getPackagesToMirror rd cfg) with
      | none =>
        rw [hB] at h
        simp at h
      | some m =>
        rw [hB] at h
        cases hw : ora.writeErr "repodata.json" with
        | some e =>
          rw [hw] at h
          simp at h
        | none =>
          rw [hw] at h
          simp only [Prod.mk.injEq] at h
          obtain ⟨h1, h2, -⟩ := h
          obtain ⟨dh, dm, dt⟩ := runDeletes_ok ora _ st st1 tr1 hD
          obtain ⟨ah, am, at2⟩ := runAdds_ok ora hash _ st1 st2 tr2 hA
          refine ⟨?_, ⟨m, rfl, ?_⟩, rfl, ?_⟩
          · intro n
            rw [← h1]
            have hmf : ({ st2 with manifest := some m } : DestState).hasFile n = st2.hasFile n :=
              rfl
            rw [hmf, ah n]
            constructor
            · rintro (hh | hadd)
              · exact Or.inl ((dh n).mp hh)
              · exact Or.inr hadd
            · rintro (hh | hadd)
              · exact Or.inl ((dh n).mpr hh)
              · exact Or.inr hadd
          · rw [← h1]
          · rw [← h2, dt, at2]

/-! ## C4: error propagation within a subdir -/

/-- C4: when the delete phase or the add phase of a subdir run fails, the
run returns exactly that error together with the state accumulated so far —
completed writes and deletes are kept, nothing is rolled back — and the
manifest object is left exactly as it was, so the new `repodata.json` is not
written. -/
theorem subdir_error_no_manifest (ora : Oracle) (hash : Bytes → Nat) (rd : RepoData)
    (cfg : CondaMirrorConfig) (entries : List Entry) (st st1 st2 : DestState)
    (tr1 tr2 : List Event) (e e' : MirrorError) :
    (runDeletes ora
        (packagesToDelete (availablePackages entries) (getPackagesToMirror rd cfg)) st =
        (st1, tr1, some e) →
      mirrorSubdirExec ora hash rd cfg entries st = (st1, tr1, some e) ∧
        st1.manifest = st.manifest) ∧
    (runDeletes ora
        (packagesToDelete (availablePackages entries) (getPackagesToMirror rd cfg)) st =
        (st1, tr1, none) →
      runAdds ora hash
          (packagesToAdd (availablePackages entries) (getPackagesToMirror rd cfg)) st1 =
          (st2, tr2, some e') →
      mirrorSubdirExec ora hash rd cfg entries st = (st2, tr1 ++ tr2, some e') ∧
        st2.manifest = st.manifest) := by
  constructor
  · intro hD
    constructor
    · simp [mirrorSubdirExec, hD]
    · have hm := runDeletes_manifest ora
        (packagesToDelete (availablePackages entries) (getPackagesToMirror rd cfg)) st
      rw [hD] at hm
      exact hm
  · intro hD hA
    constructor
    · simp [mirrorSubdirExec, hD, hA]
    · have hm1 := runDeletes_manifest ora
        (packagesToDelete (availablePackages entries) (getPackagesToMirror rd cfg)) st
      rw [hD] at hm1
      have hm2 := runAdds_manifest ora hash
        (packagesToAdd (availablePackages entries) (getPackagesToMirror rd cfg)) st1
      rw [hA] at hm2
      exact hm2.trans hm1

/-! ## C5: integrity check of one package add -/

/-- C5: for an add sub-task whose fetch yields `buf`: when the record
carries a SHA-256 differing from the digest of `buf`, the task fails with
the integrity error naming the filename and writes nothing (an error result
carries no state change); when the digests agree, or the record carries no
SHA-256, the bytes are written under the filename with no integrity
failure. -/
theorem addTask_integrity (ora : Oracle) (hash : Bytes → Nat) (f : String)
    (r : PackageRecord) (st : DestState) (buf : Bytes)
    (hfetch : ora.fetch f = Except.ok buf) :
    (∀ expected, r.sha256 = some expected → hash buf ≠ expected →
      addTask ora hash f r st =
        Except.error (MirrorError.integrityError f expected (hash buf))) ∧
    (ora.writeErr f = none →
      ((∀ expected, r.sha256 = some expected → hash buf = expected →
          addTask ora hash f r st = Except.ok (st.writeFile f buf)) ∧
        (r.sha256 = none → addTask ora hash f r st = Except.ok (st.writeFile f buf)))) := by
  refine ⟨?_, fun hw => ⟨?_, ?_⟩⟩
  · intro expected hsha hne
    have hne2 : expected ≠ hash buf := fun hh => hne hh.symm
    simp [addTask, hfetch, checkIntegrity, hsha, hne2]
  · intro expected hsha heq
    simp [addTask, hfetch, checkIntegrity, hsha, heq, hw]
  · intro hsha
    simp [addTask, hfetch, checkIntegrity, hsha, hw]

/-! ## C6: phase ordering of one subdir run -/

/-- A list of events of one common phase is phase-sorted. -/
theorem pairwise_phase_const (c : Nat) (evs : List Event) (hf : ∀ e ∈ evs, e.phase = c) :
    evs.Pairwise (fun a b => a.phase ≤ b.phase) := by
  induction evs with
  | nil => exact List.Pairwise.nil
  | cons a l ih =>
    refine List.Pairwise.cons (fun b hb => ?_)
      (ih (fun e he => hf e (List.mem_cons_of_mem a he)))
    rw [hf a (List.mem_cons_self a l), hf b (List.mem_cons_of_mem a hb)]

/-- C6: in the completions of a successful subdir run, every deletion
precedes every addition (phases are monotone along the trace), and the
manifest write is the last completion and occurs exactly once — so the
manifest is written strictly after all additions complete. -/
theorem subdir_phase_order (ora : Oracle) (hash : Bytes → Nat) (rd : RepoData)
    (cfg : CondaMirrorConfig) (entries : List Entry) (st st' : DestState)
    (tr : List Event)
    (h : mirrorSubdirExec ora hash rd cfg entries st = (st', tr, none)) :
    tr.Pairwise (fun a b => a.phase ≤ b.phase) ∧
    tr.getLast? = some Event.manifestWrite ∧
    tr.count Event.manifestWrite = 1 := by
  obtain ⟨-, -, -, htr⟩ := mirrorSubdirExec_ok ora hash rd cfg entries st st' tr h
  subst htr
  refine ⟨?_, ?_, ?_⟩
  · rw [List.pairwise_append]
    refine ⟨?_, ?_, ?_⟩
    · rw [List.pairwise_append]
      refine ⟨pairwise_phase_const 0 _ ?_, pairwise_phase_const 1 _ ?_, ?_⟩
      · intro e he
        obtain ⟨x, -, hx⟩ := List.mem_map.mp he
        rw [← hx]
        rfl
      · intro e he
        obtain ⟨x, -, hx⟩ := List.mem_map.mp he
        rw [← hx]
        rfl
      · intro a ha b hb
        obtain ⟨x, -, hx⟩ := List.mem_map.mp ha
        obtain ⟨y, -, hy⟩ := List.mem_map.mp hb
        rw [← hx, ← hy]
        exact Nat.zero_le 1
    · exact List.pairwise_singleton _ _
    · intro a ha b hb
      rw [List.mem_singleton] at hb
      subst hb
      cases a <;> simp [Event.phase]
  · have hne : ([Event.manifestWrite] : List Event) ≠ [] := by simp
    rw [List.getLast?_append_of_ne_nil _ hne]
    rfl
  · have h1 : List.count Event.manifestWrite
        ((packagesToDelete (availablePackages entries)
          (getPackagesToMirror rd cfg)).map Event.deleted) = 0 := by
      rw [List.count_eq_zero]
      intro hmem
      obtain ⟨x, -, hx⟩ := List.mem_map.mp hmem
      simp at hx
    have h2 : List.count Event.manifestWrite
        ((packagesToAdd (availablePackages entries)
          (getPackagesToMirror rd cfg)).map (fun kv => Event.added kv.1)) = 0 := by
      rw [List.count_eq_zero]
      intro hmem
      obtain ⟨x, -, hx⟩ := List.mem_map.mp hmem
      simp at hx
    rw [List.count_append, List.count_append, h1, h2]
    decide

/-- Witness for C4 at concrete inputs: a failing delete aborts the run
before the manifest write, and a failing integrity check in the add phase
does the same. -/
theorem subdir_error_no_manifest_witness :
    (mirrorSubdirExec oraDelFail hashZero rdEmpty cfgAll entriesX stEmpty =
        (stEmpty, [], some (MirrorError.storeDeleteError "x-1.0-0.tar.bz2")) ∧
      stEmpty.manifest = stEmpty.manifest) ∧
    (mirrorSubdirExec oraOk hashZero rdC cfgAll [] stEmpty =
        (stEmpty, [] ++ [], some (MirrorError.integrityError "c-1.0-0.tar.bz2" 5 0)) ∧
      stEmpty.manifest = stEmpty.manifest) :=
  ⟨(subdir_error_no_manifest oraDelFail hashZero rdEmpty cfgAll entriesX stEmpty stEmpty
      stEmpty [] [] (MirrorError.storeDeleteError "x-1.0-0.tar.bz2")
      (MirrorError.storeDeleteError "x-1.0-0.tar.bz2")).1 (by decide),
   (subdir_error_no_manifest oraOk hashZero rdC cfgAll [] stEmpty stEmpty
      stEmpty [] [] (MirrorError.integrityError "c-1.0-0.tar.bz2" 5 0)
      (MirrorError.integrityError "c-1.0-0.tar.bz2" 5 0)).2 (by decide) (by decide)⟩

/-- Witness for C5 at concrete inputs: digest mismatch 0 ≠ 5 fails with the
integrity error naming the filename; matching digest writes; a record
without a digest writes unchecked. -/
theorem addTask_integrity_witness :
    (addTask oraOk hashZero "c-1.0-0.tar.bz2" recSha5 stEmpty =
      Except.error (MirrorError.integrityError "c-1.0-0.tar.bz2" 5 0)) ∧
    (addTask oraOk hashFive "c-1.0-0.tar.bz2" recSha5 stEmpty =
      Except.ok (stEmpty.writeFile "c-1.0-0.tar.bz2" [1])) ∧
    (addTask oraOk hashZero "a-1.0-0.tar.bz2" recA stEmpty =
      Except.ok (stEmpty.writeFile "a-1.0-0.tar.bz2" [1])) :=
  ⟨(addTask_integrity oraOk hashZero "c-1.0-0.tar.bz2" recSha5 stEmpty [1] rfl).1
      5 rfl (by decide),
   ((addTask_integrity oraOk hashFive "c-1.0-0.tar.bz2" recSha5 stEmpty [1] rfl).2 rfl).1
      5 rfl rfl,
   ((addTask_integrity oraOk hashZero "a-1.0-0.tar.bz2" recA stEmpty [1] rfl).2 rfl).2 rfl⟩

/-- Witness for C6 at a concrete successful run. -/
theorem subdir_phase_order_witness :
    trRun.Pairwise (fun a b => a.phase ≤ b.phase) ∧
    trRun.getLast? = some Event.manifestWrite ∧
    trRun.count Event.manifestWrite = 1 :=
  subdir_phase_order oraOk hashZero rdAB cfgAll (listState stEmpty) stEmpty stRun trRun
    (by decide)

/-! ## C7: idempotence of the subdir mirror -/

/-- A successfully rebuilt manifest certifies that every key of the filtered
set parses as a known archive type. -/
theorem buildNewRepoData_some_keys (rd : RepoData) (K : List (String × PackageRecord))
    (m : RepoData) (h : buildNewRepoData rd K = some m) :
    ∀ kv ∈ K, (ArchiveType.tryFrom kv.1).isSome = true := by
  unfold buildNewRepoData at h
  by_cases hg : (K.all fun kv => (ArchiveType.tryFrom kv.1).isSome) = true
  · exact fun kv hkv => List.all_eq_true.mp hg kv hkv
  · rw [if_neg hg] at h
    cases h

/-- C7: running the subdir mirror again, with the same manifest and filter,
against the destination state a successful run produced computes an empty
delete plan and an empty add plan — zero package deletes and zero package
writes — and returns the identical destination state, the only completion
being the (identical) manifest written again. -/
theorem mirror_idempotent (ora ora2 : Oracle) (hash : Bytes → Nat) (rd : RepoData)
    (cfg : CondaMirrorConfig) (st st1 : DestState) (tr1 : List Event)
    (hrun : mirrorSubdirExec ora hash rd cfg (listState st) st = (st1, tr1, none))
    (hw2 : ora2.writeErr "repodata.json" = none) :
    packagesToDelete (availablePackages (listState st1)) (getPackagesToMirror rd cfg) = [] ∧
    packagesToAdd (availablePackages (listState st1)) (getPackagesToMirror rd cfg) = [] ∧
    mirrorSubdirExec ora2 hash rd cfg (listState st1) st1 =
      (st1, [Event.manifestWrite], none) := by
  obtain ⟨hfiles, ⟨m, hm, hman⟩, -, -⟩ :=
    mirrorSubdirExec_ok ora hash rd cfg (listState st) st st1 tr1 hrun
  have hkeys := buildNewRepoData_some_keys rd (getPackagesToMirror rd cfg) m hm
  have hD2K : ∀ f ∈ availablePackages (listState st1),
      ∃ r, (f, r) ∈ getPackagesToMirror rd cfg := by
    intro f hf
    obtain ⟨hhas, hsome⟩ := (mem_available_listState st1 f).mp hf
    rcases (hfiles f).mp hhas with ⟨hst, hnd⟩ | hadd
    · have hfD1 : f ∈ availablePackages (listState st) :=
        (mem_available_listState st f).mpr ⟨hst, hsome⟩
      by_contra hno
      push_neg at hno
      apply hnd
      unfold packagesToDelete
      rw [List.mem_filter]
      refine ⟨hfD1, ?_⟩
      simp only [Bool.not_eq_true', List.any_eq_false, beq_iff_eq]
      intro kv hkv hke
      exact hno kv.2 (by rw [← hke]; exact hkv)
    · obtain ⟨kv, hkv, hfk⟩ := List.mem_map.mp hadd
      subst hfk
      exact ⟨kv.2, (List.mem_filter.mp hkv).1⟩
  have hKD2 : ∀ kv ∈ getPackagesToMirror rd cfg,
      kv.1 ∈ availablePackages (listState st1) := by
    intro kv hkv
    have hsome := hkeys kv hkv
    refine (mem_available_listState st1 kv.1).mpr ⟨?_, hsome⟩
    by_cases hd1 : kv.1 ∈ availablePackages (listState st)
    · refine (hfiles kv.1).mpr (Or.inl ⟨((mem_available_listState st kv.1).mp hd1).1, ?_⟩)
      intro hdel
      have hmem := List.mem_filter.mp hdel
      have hany : ((getPackagesToMirror rd cfg).any fun x => x.1 == kv.1) = true :=
        List.any_eq_true.mpr ⟨kv, hkv, by simp⟩
      rw [hany] at hmem
      simp at hmem
    · refine (hfiles kv.1).mpr (Or.inr (List.mem_map.mpr ⟨kv, List.mem_filter.mpr ⟨hkv, ?_⟩, rfl⟩))
      simp [hd1]
  have htd : packagesToDelete (availablePackages (listState st1))
      (getPackagesToMirror rd cfg) = [] := by
    unfold packagesToDelete
    rw [List.filter_eq_nil_iff]
    intro f hf
    obtain ⟨r, hr⟩ := hD2K f hf
    simp only [Bool.not_eq_true', Bool.not_eq_false, List.any_eq_true, beq_iff_eq]
    exact ⟨(f, r), hr, rfl⟩
  have hta : packagesToAdd (availablePackages (listState st1))
      (getPackagesToMirror rd cfg) = [] := by
    unfold packagesToAdd
    rw [List.filter_eq_nil_iff]
    intro kv hkv
    have hmem := hKD2 kv hkv
    simp [hmem]
  refine ⟨htd, hta, ?_⟩
  have hst1m : st1 = { files := st1.files, manifest := some m } := by
    rw [← hman]
  unfold mirrorSubdirExec
  rw [htd, hta]
  simp only [runDeletes, runAdds]
  rw [hm, hw2]
  simp only [List.nil_append]
  rw [← hst1m]

/-- Witness for C7 at a concrete successful first run. -/
theorem mirror_idempotent_witness :
    packagesToDelete (availablePackages (listState stRun))
      (getPackagesToMirror rdAB cfgAll) = [] ∧
    packagesToAdd (availablePackages (listState stRun))
      (getPackagesToMirror rdAB cfgAll) = [] ∧
    mirrorSubdirExec oraOk hashZero rdAB cfgAll (listState stRun) stRun =
      (stRun, [Event.manifestWrite], none) :=
  mirror_idempotent oraOk oraOk hashZero rdAB cfgAll stEmpty stRun trRun (by decide) rfl

end CondaMirror
